import Mathlib

/-!
Shallow embedding of the semi-continuum unsaturated-flow simulator
(`main.py`): explicit time stepping of saturation, capillary pressure with
hysteresis and face-centred Darcy fluxes on a staggered 3-D grid.

Conventions.
* Dense 3-D fields are total functions `ℕ → ℕ → ℕ → ℝ`, indexed `(y, z, x)`
  exactly as the source arrays; only indices inside the grid are meaningful.
* Exact real arithmetic stands for the floating-point arithmetic of the
  source; `Real.sqrt` embeds `np.sqrt` and real exponentiation (`rpow`)
  embeds `**` with a real exponent.
* The retention curves live in `retention_curves.py`, which is not among the
  sources.  Following the specification (§4.3, §6) they are pluggable pure
  vectorised functions, so they are configuration fields here, and the
  van Genuchten exponent `M_Q` (derived in the source from the missing
  module) is a configuration constant.
-/

namespace SemiContinuum

noncomputable section

/-- Acceleration due to gravity, `G = 9.81` in the source. -/
def G : ℝ := 9.81

/-- Porosity, `THETA = 0.35`. -/
def THETA : ℝ := 0.35

/-- Base intrinsic permeability, `KAPPA = 2.293577981651376e-10`. -/
def KAPPA : ℝ := 2.293577981651376e-10

/-- Dynamic viscosity, `MU = 9e-4`. -/
def MU : ℝ := 9e-4

/-- Density of water, `RHO = 1000`. -/
def RHO : ℝ := 1000

/-- `MU_INVERSE = 1 / MU`. -/
def MU_INVERSE : ℝ := 1 / MU

/-- `RHO_G = RHO * G`. -/
def RHO_G : ℝ := RHO * G

/-- Hysteresis stiffness constant, `Kps = 1e5`. -/
def Kps : ℝ := 1e5

/-- Relative-permeability exponent, `LAMBDA = 0.8`. -/
def LAMBDA : ℝ := 0.8

/-- Near-unity saturation limit, `LIM_VALUE = 0.999`. -/
def LIM_VALUE : ℝ := 0.999

/-- Base time step for `dL = 0.01`, `dtBase = 1e-3 * 0.25`. -/
def dtBase : ℝ := 1e-3 * 0.25

/-- Configuration surface of a run: grid dimensions, block size, initial
saturation, the bottom residual-saturation threshold, the van Genuchten
exponent `M_Q` (a configuration constant, the source derives it from the
external `retention_curves` module), the initial retention branch, the two
retention-curve functions (external pluggable interface), the
intrinsic-permeability multiplier field (result of one of the randomization
strategies, or constant one when randomization is disabled), and the
top-boundary flux pattern written into `Q_Z[:, 0, :]` at initialization. -/
structure Config where
  nY : ℕ
  nZ : ℕ
  nX : ℕ
  dL : ℝ
  S0 : ℝ
  boundResidual : ℝ
  M_Q : ℝ
  initBranch : Bool
  curveWet : ℝ → ℝ
  curveDrain : ℝ → ℝ
  multiplyField : ℕ → ℕ → ℕ → ℝ
  topFlux : ℕ → ℕ → ℝ

/-- Discretization parameter `dx_PAR = dL / 0.01`. -/
def dxPar (c : Config) : ℝ := c.dL / 0.01

/-- Time step `dt = dx_PAR ^ 2 * dtBase`. -/
def dt (c : Config) : ℝ := dxPar c ^ 2 * dtBase

/-- Transport constant `SM = dt / (THETA * dL)`. -/
def SM (c : Config) : ℝ := dt c / (THETA * c.dL)

/-- Randomized intrinsic permeability `k_rnd = KAPPA * multiply`. -/
def k_rnd (c : Config) (y z x : ℕ) : ℝ := KAPPA * c.multiplyField y z x

/-- Cached face conductance along the x-axis:
`k_rnd_q1 = MU_INVERSE * k_rnd_sqrt[:, :, :N_X-1] * k_rnd_sqrt[:, :, 1:N_X]`;
entry `(y, z, x)` couples cells `x` and `x + 1`. -/
def k_rnd_q1 (c : Config) (y z x : ℕ) : ℝ :=
  MU_INVERSE * Real.sqrt (k_rnd c y z x) * Real.sqrt (k_rnd c y z (x + 1))

/-- Cached face conductance along the z-axis (depth):
`k_rnd_q2 = MU_INVERSE * k_rnd_sqrt[:, :N_Z-1, :] * k_rnd_sqrt[:, 1:N_Z, :]`;
entry `(y, z, x)` couples cells `z` and `z + 1`. -/
def k_rnd_q2 (c : Config) (y z x : ℕ) : ℝ :=
  MU_INVERSE * Real.sqrt (k_rnd c y z x) * Real.sqrt (k_rnd c y (z + 1) x)

/-- Cached face conductance along the y-axis:
`k_rnd_q3 = MU_INVERSE * k_rnd_sqrt[:N_Y-1, :, :] * k_rnd_sqrt[1:N_Y, :, :]`;
entry `(y, z, x)` couples cells `y` and `y + 1`. -/
def k_rnd_q3 (c : Config) (y z x : ℕ) : ℝ :=
  MU_INVERSE * Real.sqrt (k_rnd c y z x) * Real.sqrt (k_rnd c (y + 1) z x)

/-- Noise-to-multiplier map of the randomization step: the source allocates
`multiply = np.zeros_like(random_perm)` and then overwrites the entries with
positive noise by `1 + r` and the entries with negative noise by
`1 / (1 - r)`; an entry with noise exactly `0` keeps its allocation value
`0`. -/
def multiply (r : ℝ) : ℝ :=
  if 0 < r then 1 + r else if r < 0 then 1 / (1 - r) else 0

/-- Relative permeability closure
`perm = S ** LAMBDA * (1 - (1 - S ** M_Q_inverse) ** M_Q) ** 2`
with `M_Q_inverse = 1 / M_Q`. -/
def permFn (m s : ℝ) : ℝ :=
  s ^ LAMBDA * (1 - (1 - s ^ m⁻¹) ^ m) ^ 2

/-- The mutable per-step state: cell-centred saturation `S` and capillary
pressure `P`, the three face-centred flux arrays and the bottom boundary
flux slab `bound_flux` (indexed `(y, x)`).  The cell divergence `Q` is fully
recomputed each step and is not part of the persistent state. -/
@[ext]
structure State where
  S : ℕ → ℕ → ℕ → ℝ
  P : ℕ → ℕ → ℕ → ℝ
  QX : ℕ → ℕ → ℕ → ℝ
  QY : ℕ → ℕ → ℕ → ℝ
  QZ : ℕ → ℕ → ℕ → ℝ
  boundFlux : ℕ → ℕ → ℝ

/-- Net divergence of a cell from its six bounding faces:
`Q = Q_X[:, :, :N_X] - Q_X[:, :, 1:] + Q_Y[:N_Y] - Q_Y[1:] + Q_Z[:, :N_Z] - Q_Z[:, 1:]`. -/
def qDiv (s : State) (y z x : ℕ) : ℝ :=
  s.QX y z x - s.QX y z (x + 1) + s.QY y z x - s.QY (y + 1) z x
    + s.QZ y z x - s.QZ y (z + 1) x

/-- Saturation before the bottom boundary correction:
`S_new = S + SM * Q`. -/
def sNewPre (c : Config) (s : State) (y z x : ℕ) : ℝ :=
  s.S y z x + SM c * qDiv s y z x

/-- Saturation after the bottom boundary correction: the bottom layer
`z = N_Z - 1` becomes
`max(S_new + SM * bound_flux, min(S_new, bound_residual))`,
all other layers keep `S_new`. -/
def sNewFn (c : Config) (s : State) (y z x : ℕ) : ℝ :=
  if z = c.nZ - 1 then
    max (sNewPre c s y z x + SM c * s.boundFlux y x)
      (min (sNewPre c s y z x) c.boundResidual)
  else sNewPre c s y z x

/-- Pressure update with hysteresis: relax by `Kps * (S_new - S)`, then clamp
from above by the wetting branch where saturation increased and from below by
the draining branch where it decreased; both branch pressures are evaluated
at the old saturation. -/
def pNewFn (c : Config) (s : State) (y z x : ℕ) : ℝ :=
  if sNewFn c s y z x - s.S y z x > 0 then
    min (s.P y z x + Kps * (sNewFn c s y z x - s.S y z x)) (c.curveWet (s.S y z x))
  else if s.S y z x - sNewFn c s y z x > 0 then
    max (s.P y z x + Kps * (sNewFn c s y z x - s.S y z x)) (c.curveDrain (s.S y z x))
  else s.P y z x + Kps * (sNewFn c s y z x - s.S y z x)

/-- Relative permeability of the step, evaluated at the just-updated
saturation. -/
def permNew (c : Config) (s : State) (y z x : ℕ) : ℝ :=
  permFn c.M_Q (sNewFn c s y z x)

/-- One iteration of the main loop: saturation update (with the bottom
boundary correction), pressure update, flux update on the interior faces
(`Q_X[:, :, 1:N_X]`, `Q_Y[1:N_Y, :, :]`, `Q_Z[:, 1:N_Z, :]`), commit
`S ← S_new`, and recomputation of the bottom boundary flux. -/
def step (c : Config) (s : State) : State where
  S := sNewFn c s
  P := pNewFn c s
  QX := fun y z x =>
    if 1 ≤ x ∧ x < c.nX then
      k_rnd_q1 c y z (x - 1) * Real.sqrt (permNew c s y z (x - 1)) *
          Real.sqrt (permNew c s y z x) *
        (-((pNewFn c s y z x - pNewFn c s y z (x - 1)) / c.dL))
    else s.QX y z x
  QY := fun y z x =>
    if 1 ≤ y ∧ y < c.nY then
      k_rnd_q3 c (y - 1) z x * Real.sqrt (permNew c s (y - 1) z x) *
          Real.sqrt (permNew c s y z x) *
        (-((pNewFn c s y z x - pNewFn c s (y - 1) z x) / c.dL))
    else s.QY y z x
  QZ := fun y z x =>
    if 1 ≤ z ∧ z < c.nZ then
      k_rnd_q2 c y (z - 1) x * Real.sqrt (permNew c s y (z - 1) x) *
          Real.sqrt (permNew c s y z x) *
        (RHO_G - (pNewFn c s y z x - pNewFn c s y (z - 1) x) / c.dL)
    else s.QZ y z x
  boundFlux := fun y x =>
    MU_INVERSE * k_rnd c y (c.nZ - 1) x * permNew c s y (c.nZ - 1) x *
      (RHO_G - (0 - pNewFn c s y (c.nZ - 1) x) / c.dL)

/-- Initial state: uniform saturation `S0`, pressure on the chosen retention
branch, all fluxes zero except the top face row `Q_Z[:, 0, :]` which carries
the configured injection pattern, and zero bottom boundary flux. -/
def initState (c : Config) : State where
  S := fun _ _ _ => c.S0
  P := fun _ _ _ => if c.initBranch then c.curveWet c.S0 else c.curveDrain c.S0
  QX := fun _ _ _ => 0
  QY := fun _ _ _ => 0
  QZ := fun y z x => if z = 0 then c.topFlux y x else 0
  boundFlux := fun _ _ => 0

/-- State after `n` iterations of the main loop. -/
def run (c : Config) : ℕ → State
  | 0 => initState c
  | n + 1 => step c (run c n)

/-- Total saturation mass `np.sum(S)` over the grid. -/
def totalS (c : Config) (s : State) : ℝ :=
  ∑ y ∈ Finset.range c.nY, ∑ z ∈ Finset.range c.nZ, ∑ x ∈ Finset.range c.nX,
    s.S y z x

/-- Top boundary inflow per step, `np.sum(Q_Z[:, 0, :])`. -/
def topSum (c : Config) (s : State) : ℝ :=
  ∑ y ∈ Finset.range c.nY, ∑ x ∈ Finset.range c.nX, s.QZ y 0 x

/-- Realized mass change `np.sum(S) - np.sum(S0_ini)`. -/
def flowedInReal (c : Config) (s : State) : ℝ :=
  totalS c s - (c.nY * c.nZ * c.nX : ℕ) * c.S0

/-- Theoretical cumulative inflow at step `k`, `k * SM * np.sum(Q_Z[:,0,:])`. -/
def flowedInShould (c : Config) (s : State) (k : ℕ) : ℝ :=
  k * SM c * topSum c s

/-- IEEE-style division as performed by the floating-point source: a zero
denominator yields a non-finite value (NaN or infinity), modelled as `none`;
otherwise the exact quotient. -/
def floatDiv (a b : ℝ) : Option ℝ :=
  if b = 0 then none else some (a / b)

/-- Relative mass-balance error of the checkpoint diagnostic,
`error_rel = error_abs / flowed_in_should`, computed with the unguarded
floating-point division of the source. -/
def errorRel (c : Config) (s : State) (k : ℕ) : Option ℝ :=
  floatDiv |flowedInReal c s - flowedInShould c s k| (flowedInShould c s k)

/-- Maximum of `f` over `0, …, n`. -/
def rowMax (f : ℕ → ℝ) : ℕ → ℝ
  | 0 => f 0
  | n + 1 => max (rowMax f n) (f (n + 1))

/-- `np.amax(S)` over the whole grid (grid dimensions are at least one). -/
def maxS (c : Config) (s : State) : ℝ :=
  rowMax (fun y => rowMax (fun z => rowMax (fun x => s.S y z x) (c.nX - 1)) (c.nZ - 1))
    (c.nY - 1)

/-- The divergence guard of the loop,
`np.abs(np.amax(S)) > LIM_VALUE`, evaluated on the committed saturation at
the end of an iteration. -/
def guardTriggers (c : Config) (s : State) : Prop :=
  LIM_VALUE < |maxS c s|

instance guardTriggersDec (c : Config) (s : State) : Decidable (guardTriggers c s) :=
  Real.decidableLT _ _

/-- The guarded loop: each iteration commits `step` and then raises
(`none`, and stays raised) as soon as the divergence guard fires. -/
def runGuard (c : Config) : ℕ → Option State
  | 0 => some (initState c)
  | n + 1 =>
    match runGuard c n with
    | none => none
    | some s => if guardTriggers c (step c s) then none else some (step c s)

/-- Identity wetting retention curve used for concrete runs: monotonic and
continuous on `(0, 1)`. -/
def idWet : ℝ → ℝ := fun t => t

/-- Draining retention curve `t + 1` used for concrete runs: monotonic,
continuous, and everywhere at least the wetting branch. -/
def idDrain : ℝ → ℝ := fun t => t + 1

/-- Concrete run configuration: single-cell grid with source block size
`dL = 0.0025`, zero initial saturation, zero top flux, bottom residual
threshold `1.05` as in the source, van Genuchten constant `M_Q = 1/2`, no
randomization. -/
def czero : Config where
  nY := 1
  nZ := 1
  nX := 1
  dL := 1 / 400
  S0 := 0
  boundResidual := 21 / 20
  M_Q := 1 / 2
  initBranch := true
  curveWet := idWet
  curveDrain := idDrain
  multiplyField := fun _ _ _ => 1
  topFlux := fun _ _ => 0

/-- Like `czero` but with the source's initial saturation `S0 = 0.01`. -/
def cexC2 : Config := { czero with S0 := 1 / 100 }

/-- Like `cexC2` but with two layers in depth, so that one interior z-face
exists. -/
def cexC7 : Config := { cexC2 with nZ := 2 }

/-- Like `cexC2` but with the source's top boundary flux `Q0 = 8e-5` applied
to the whole top face (the `FLUX_FULL` mode). -/
def cfgQ : Config := { cexC2 with topFlux := fun _ _ => 8e-5 }

/-- A 1 × 1 × 2 grid used to exercise the divergence guard. -/
def gridC5 : Config := { czero with nX := 2 }

/-- A saturation field with one positive and one negative cell (all other
state components zero). -/
def stNeg : State where
  S := fun _ _ x => if x = 0 then 1 / 2 else -(1 / 2)
  P := fun _ _ _ => 0
  QX := fun _ _ _ => 0
  QY := fun _ _ _ => 0
  QZ := fun _ _ _ => 0
  boundFlux := fun _ _ => 0

/-- A saturation field uniformly above the divergence limit. -/
def stHigh : State := { stNeg with S := fun _ _ _ => 2 }

theorem le_rowMax (f : ℕ → ℝ) : ∀ n i, i ≤ n → f i ≤ rowMax f n := by
  intro n
  induction n with
  | zero =>
    intro i hi
    have h0 : i = 0 := Nat.le_zero.mp hi
    subst h0
    exact le_of_eq rfl
  | succ n ih =>
    intro i hi
    by_cases h : i ≤ n
    · exact le_trans (ih i h) (le_max_left _ _)
    · have h1 : i = n + 1 := le_antisymm hi (Nat.succ_le_of_lt (Nat.lt_of_not_le h))
      subst h1
      exact le_max_right _ _

theorem permFn_nonneg (m s : ℝ) (hs : 0 ≤ s) : 0 ≤ permFn m s :=
  mul_nonneg (Real.rpow_nonneg hs _) (sq_nonneg _)

theorem permFn_pos (m s : ℝ) (hm : 0 < m) (h0 : 0 < s) (h1 : s < 1) :
    0 < permFn m s := by
  have ha0 : 0 < s ^ m⁻¹ := Real.rpow_pos_of_pos h0 _
  have ha1 : s ^ m⁻¹ < 1 := Real.rpow_lt_one h0.le h1 (inv_pos.mpr hm)
  have hb1 : (1 - s ^ m⁻¹) ^ m < 1 := Real.rpow_lt_one (by linarith) (by linarith) hm
  have hpos : 0 < 1 - (1 - s ^ m⁻¹) ^ m := by linarith
  exact mul_pos (Real.rpow_pos_of_pos h0 _) (pow_pos hpos 2)

theorem permFn_zero (m : ℝ) : permFn m 0 = 0 := by
  rw [permFn, Real.zero_rpow (by norm_num [LAMBDA])]
  ring

theorem init_qDiv_zero (c : Config) (htop : ∀ y x, c.topFlux y x = 0) (y z x : ℕ) :
    qDiv (initState c) y z x = 0 := by
  simp [qDiv, initState, htop]

theorem init_sNew (c : Config) (htop : ∀ y x, c.topFlux y x = 0) (y z x : ℕ) :
    sNewFn c (initState c) y z x = c.S0 := by
  have hpre : sNewPre c (initState c) y z x = c.S0 := by
    rw [sNewPre, init_qDiv_zero c htop]
    show c.S0 + SM c * 0 = c.S0
    ring
  rw [sNewFn]
  split_ifs with h
  · rw [hpre]
    show max (c.S0 + SM c * 0) (min c.S0 c.boundResidual) = c.S0
    rw [mul_zero, add_zero]
    exact max_eq_left (min_le_left _ _)
  · exact hpre

theorem init_pNew (c : Config) (htop : ∀ y x, c.topFlux y x = 0) (y z x : ℕ) :
    pNewFn c (initState c) y z x = (initState c).P y z x := by
  rw [pNewFn]
  simp only [init_sNew c htop]
  show (if c.S0 - c.S0 > 0 then _ else if c.S0 - c.S0 > 0 then _ else _) = _
  rw [if_neg (by linarith), if_neg (by linarith)]
  show (initState c).P y z x + Kps * (c.S0 - c.S0) = (initState c).P y z x
  ring

theorem step_init_fixed (c : Config) (htop : ∀ y x, c.topFlux y x = 0)
    (hS0 : c.S0 = 0) : step c (initState c) = initState c := by
  have hperm : ∀ y z x, permNew c (initState c) y z x = 0 := by
    intro y z x
    rw [permNew, init_sNew c htop, hS0, permFn_zero]
  have hs : (step c (initState c)).S = (initState c).S := by
    funext y z x
    show sNewFn c (initState c) y z x = c.S0
    exact init_sNew c htop y z x
  have hp : (step c (initState c)).P = (initState c).P := by
    funext y z x
    exact init_pNew c htop y z x
  have hqx : (step c (initState c)).QX = (initState c).QX := by
    funext y z x
    simp only [step]
    split_ifs with h
    · rw [hperm, hperm, Real.sqrt_zero]
      simp [initState]
    · rfl
  have hqy : (step c (initState c)).QY = (initState c).QY := by
    funext y z x
    simp only [step]
    split_ifs with h
    · rw [hperm, hperm, Real.sqrt_zero]
      simp [initState]
    · rfl
  have hqz : (step c (initState c)).QZ = (initState c).QZ := by
    funext y z x
    simp only [step]
    split_ifs with h
    · rw [hperm, hperm, Real.sqrt_zero]
      have hz : z ≠ 0 := by omega
      simp [initState, hz]
    · rfl
  have hbf : (step c (initState c)).boundFlux = (initState c).boundFlux := by
    funext y x
    show MU_INVERSE * k_rnd c y (c.nZ - 1) x * permNew c (initState c) y (c.nZ - 1) x *
        (RHO_G - (0 - pNewFn c (initState c) y (c.nZ - 1) x) / c.dL)
      = (initState c).boundFlux y x
    rw [hperm]
    show MU_INVERSE * k_rnd c y (c.nZ - 1) x * 0 * _ = (0 : ℝ)
    ring
  exact State.ext hs hp hqx hqy hqz hbf

theorem run_const (c : Config) (htop : ∀ y x, c.topFlux y x = 0) (hS0 : c.S0 = 0) :
    ∀ n, run c n = initState c := by
  intro n
  induction n with
  | zero => rfl
  | succ n ih =>
    show step c (run c n) = initState c
    rw [ih, step_init_fixed c htop hS0]

theorem run_frame (c : Config) (hZ : 1 ≤ c.nZ) :
    ∀ n y z x, (run c n).QZ y 0 x = c.topFlux y x ∧ (run c n).QZ y c.nZ x = 0 ∧
      (run c n).QX y z 0 = 0 ∧ (run c n).QX y z c.nX = 0 ∧
      (run c n).QY 0 z x = 0 ∧ (run c n).QY c.nY z x = 0 := by
  intro n
  induction n with
  | zero =>
    intro y z x
    refine ⟨by simp [run, initState], ?_, rfl, rfl, rfl, rfl⟩
    have hz : c.nZ ≠ 0 := by omega
    simp [run, initState, hz]
  | succ n ih =>
    intro y z x
    refine ⟨?_, ?_, ?_, ?_, ?_, ?_⟩
    · simp only [run, step]
      split_ifs with h
      · omega
      · exact (ih y z x).1
    · simp only [run, step]
      split_ifs with h
      · omega
      · exact (ih y z x).2.1
    · simp only [run, step]
      split_ifs with h
      · omega
      · exact (ih y z x).2.2.1
    · simp only [run, step]
      split_ifs with h
      · omega
      · exact (ih y z x).2.2.2.1
    · simp only [run, step]
      split_ifs with h
      · omega
      · exact (ih y z x).2.2.2.2.1
    · simp only [run, step]
      split_ifs with h
      · omega
      · exact (ih y z x).2.2.2.2.2

theorem sum_qDiv (c : Config) (s : State)
    (hX0 : ∀ y z, s.QX y z 0 = 0) (hXn : ∀ y z, s.QX y z c.nX = 0)
    (hY0 : ∀ z x, s.QY 0 z x = 0) (hYn : ∀ z x, s.QY c.nY z x = 0)
    (hZn : ∀ y x, s.QZ y c.nZ x = 0) :
    ∑ y ∈ Finset.range c.nY, ∑ z ∈ Finset.range c.nZ, ∑ x ∈ Finset.range c.nX,
        qDiv s y z x
      = topSum c s := by
  have hsplit : ∀ y z x, qDiv s y z x
      = (s.QX y z x - s.QX y z (x + 1)) + ((s.QY y z x - s.QY (y + 1) z x)
          + (s.QZ y z x - s.QZ y (z + 1) x)) := by
    intro y z x
    rw [qDiv]
    ring
  simp only [hsplit, Finset.sum_add_distrib]
  have TX : ∑ y ∈ Finset.range c.nY, ∑ z ∈ Finset.range c.nZ,
      ∑ x ∈ Finset.range c.nX, (s.QX y z x - s.QX y z (x + 1)) = 0 := by
    refine Finset.sum_eq_zero fun y _ => Finset.sum_eq_zero fun z _ => ?_
    rw [Finset.sum_range_sub' (fun i => s.QX y z i), hX0 y z, hXn y z, sub_zero]
  have TY : ∑ y ∈ Finset.range c.nY, ∑ z ∈ Finset.range c.nZ,
      ∑ x ∈ Finset.range c.nX, (s.QY y z x - s.QY (y + 1) z x) = 0 := by
    rw [Finset.sum_comm]
    refine Finset.sum_eq_zero fun z _ => ?_
    rw [Finset.sum_comm]
    refine Finset.sum_eq_zero fun x _ => ?_
    rw [Finset.sum_range_sub' (fun i => s.QY i z x), hY0 z x, hYn z x, sub_zero]
  have TZ : ∑ y ∈ Finset.range c.nY, ∑ z ∈ Finset.range c.nZ,
      ∑ x ∈ Finset.range c.nX, (s.QZ y z x - s.QZ y (z + 1) x) = topSum c s := by
    refine Finset.sum_congr rfl fun y _ => ?_
    rw [Finset.sum_comm]
    refine Finset.sum_congr rfl fun x _ => ?_
    rw [Finset.sum_range_sub' (fun i => s.QZ y i x), hZn y x, sub_zero]
  rw [TX, TY, TZ]
  ring

theorem totalS_step (c : Config) (s : State)
    (hX0 : ∀ y z, s.QX y z 0 = 0) (hXn : ∀ y z, s.QX y z c.nX = 0)
    (hY0 : ∀ z x, s.QY 0 z x = 0) (hYn : ∀ z x, s.QY c.nY z x = 0)
    (hZn : ∀ y x, s.QZ y c.nZ x = 0)
    (hbot : ∀ y x, sNewFn c s y (c.nZ - 1) x = sNewPre c s y (c.nZ - 1) x) :
    totalS c (step c s) = totalS c s + SM c * topSum c s := by
  have h1 : totalS c (step c s)
      = ∑ y ∈ Finset.range c.nY, ∑ z ∈ Finset.range c.nZ, ∑ x ∈ Finset.range c.nX,
          sNewPre c s y z x := by
    refine Finset.sum_congr rfl fun y _ => Finset.sum_congr rfl fun z _ =>
      Finset.sum_congr rfl fun x _ => ?_
    show sNewFn c s y z x = sNewPre c s y z x
    by_cases hz : z = c.nZ - 1
    · rw [hz]
      exact hbot y x
    · rw [sNewFn, if_neg hz]
  rw [h1]
  simp only [sNewPre, Finset.sum_add_distrib, ← Finset.mul_sum]
  rw [sum_qDiv c s hX0 hXn hY0 hYn hZn]
  rfl

theorem cexC2_krnd (y z x : ℕ) : k_rnd cexC2 y z x = KAPPA := by
  simp [k_rnd, cexC2, czero]

theorem cexC7_krnd (y z x : ℕ) : k_rnd cexC7 y z x = KAPPA := by
  simp [k_rnd, cexC7, cexC2, czero]

theorem cexC2_sNew1 (y z x : ℕ) : sNewFn cexC2 (initState cexC2) y z x = 1 / 100 :=
  init_sNew cexC2 (fun _ _ => rfl) y z x

theorem cexC7_sNew1 (y z x : ℕ) : sNewFn cexC7 (initState cexC7) y z x = 1 / 100 :=
  init_sNew cexC7 (fun _ _ => rfl) y z x

theorem cexC2_pNew1 (y z x : ℕ) : pNewFn cexC2 (initState cexC2) y z x = 1 / 100 := by
  rw [init_pNew cexC2 (fun _ _ => rfl)]
  simp [initState, cexC2, czero, idWet]

theorem cexC7_pNew1 (y z x : ℕ) : pNewFn cexC7 (initState cexC7) y z x = 1 / 100 := by
  rw [init_pNew cexC7 (fun _ _ => rfl)]
  simp [initState, cexC7, cexC2, czero, idWet]

theorem cexC7_run1_QZ : (run cexC7 1).QZ 0 1 0
    = MU_INVERSE * KAPPA * permFn cexC7.M_Q (1 / 100) * RHO_G := by
  show (step cexC7 (initState cexC7)).QZ 0 1 0 = _
  simp only [step]
  have hcond : 1 ≤ 1 ∧ 1 < cexC7.nZ := ⟨le_refl 1, by norm_num [cexC7, cexC2, czero]⟩
  rw [if_pos hcond]
  have h0 : (1 : ℕ) - 1 = 0 := rfl
  rw [h0, permNew, permNew, cexC7_sNew1, cexC7_sNew1, cexC7_pNew1, cexC7_pNew1,
    k_rnd_q2, cexC7_krnd, cexC7_krnd]
  have hbr : RHO_G - ((1 : ℝ) / 100 - 1 / 100) / cexC7.dL = RHO_G := by norm_num
  rw [hbr]
  have hK2 : Real.sqrt KAPPA * Real.sqrt KAPPA = KAPPA :=
    Real.mul_self_sqrt (by norm_num [KAPPA])
  have hp2 : Real.sqrt (permFn cexC7.M_Q (1 / 100)) * Real.sqrt (permFn cexC7.M_Q (1 / 100))
      = permFn cexC7.M_Q (1 / 100) :=
    Real.mul_self_sqrt (permFn_nonneg _ _ (by norm_num))
  linear_combination
    (Real.sqrt (permFn cexC7.M_Q (1 / 100)) * Real.sqrt (permFn cexC7.M_Q (1 / 100)) *
      RHO_G * MU_INVERSE) * hK2 + (MU_INVERSE * KAPPA * RHO_G) * hp2

theorem cexC7_run1_flux0 :
    (run cexC7 1).QX 0 0 0 = 0 ∧ (run cexC7 1).QX 0 0 1 = 0 ∧
      (run cexC7 1).QY 0 0 0 = 0 ∧ (run cexC7 1).QY 1 0 0 = 0 ∧
      (run cexC7 1).QZ 0 0 0 = 0 := by
  refine ⟨?_, ?_, ?_, ?_, ?_⟩ <;> simp [run, step, initState, cexC7, cexC2, czero]

theorem cexC7_run2_S : (run cexC7 2).S 0 0 0
    = 1 / 100 - SM cexC7 * (MU_INVERSE * KAPPA * permFn cexC7.M_Q (1 / 100) * RHO_G) := by
  show sNewFn cexC7 (run cexC7 1) 0 0 0 = _
  rw [sNewFn, if_neg (by norm_num [cexC7, cexC2, czero] : ¬((0 : ℕ) = cexC7.nZ - 1))]
  rw [sNewPre, qDiv]
  simp only [Nat.zero_add]
  have hS1 : (run cexC7 1).S 0 0 0 = 1 / 100 := cexC7_sNew1 0 0 0
  rw [hS1, cexC7_run1_flux0.1, cexC7_run1_flux0.2.1, cexC7_run1_flux0.2.2.1,
    cexC7_run1_flux0.2.2.2.1, cexC7_run1_flux0.2.2.2.2, cexC7_run1_QZ]
  ring

theorem cexC2_run1_flux0 :
    (run cexC2 1).QX 0 0 0 = 0 ∧ (run cexC2 1).QX 0 0 1 = 0 ∧
      (run cexC2 1).QY 0 0 0 = 0 ∧ (run cexC2 1).QY 1 0 0 = 0 ∧
      (run cexC2 1).QZ 0 0 0 = 0 ∧ (run cexC2 1).QZ 0 1 0 = 0 := by
  refine ⟨?_, ?_, ?_, ?_, ?_, ?_⟩ <;> simp [run, step, initState, cexC2, czero]

theorem cexC2_run1_bf : (run cexC2 1).boundFlux 0 0
    = MU_INVERSE * KAPPA * permFn cexC2.M_Q (1 / 100) * (RHO_G + 4) := by
  show (step cexC2 (initState cexC2)).boundFlux 0 0 = _
  simp only [step]
  have h0 : cexC2.nZ - 1 = 0 := rfl
  rw [h0, permNew, cexC2_sNew1, cexC2_pNew1, cexC2_krnd]
  have hbr : RHO_G - ((0 : ℝ) - 1 / 100) / cexC2.dL = RHO_G + 4 := by
    norm_num [cexC2, czero]
  rw [hbr]

theorem cexC2_bf_pos : 0 < (run cexC2 1).boundFlux 0 0 := by
  rw [cexC2_run1_bf]
  have hMU : (0 : ℝ) < MU_INVERSE := by norm_num [MU_INVERSE, MU]
  have hK : (0 : ℝ) < KAPPA := by norm_num [KAPPA]
  have hπ : 0 < permFn cexC2.M_Q (1 / 100) :=
    permFn_pos _ _ (by norm_num [cexC2, czero]) (by norm_num) (by norm_num)
  have hG : (0 : ℝ) < RHO_G + 4 := by norm_num [RHO_G, RHO, G]
  exact mul_pos (mul_pos (mul_pos hMU hK) hπ) hG

theorem cexC2_SM_pos : 0 < SM cexC2 := by
  norm_num [SM, dt, dxPar, dtBase, THETA, cexC2, czero]

theorem cexC2_pre2 : sNewPre cexC2 (run cexC2 1) 0 0 0 = 1 / 100 := by
  rw [sNewPre, qDiv]
  simp only [Nat.zero_add]
  have hS1 : (run cexC2 1).S 0 0 0 = 1 / 100 := cexC2_sNew1 0 0 0
  rw [hS1, cexC2_run1_flux0.1, cexC2_run1_flux0.2.1, cexC2_run1_flux0.2.2.1,
    cexC2_run1_flux0.2.2.2.1, cexC2_run1_flux0.2.2.2.2.1, cexC2_run1_flux0.2.2.2.2.2]
  ring

theorem cexC2_run2_S : (run cexC2 2).S 0 0 0
    = 1 / 100 + SM cexC2 * (run cexC2 1).boundFlux 0 0 := by
  show sNewFn cexC2 (run cexC2 1) 0 0 0 = _
  rw [sNewFn, if_pos (by norm_num [cexC2, czero] : (0 : ℕ) = cexC2.nZ - 1)]
  rw [cexC2_pre2]
  rw [min_eq_left (by norm_num [cexC2, czero] : (1 : ℝ) / 100 ≤ cexC2.boundResidual)]
  refine max_eq_left ?_
  nlinarith [mul_pos cexC2_SM_pos cexC2_bf_pos]

theorem runGuard_czero_one : runGuard czero 1 = some (initState czero) := by
  have hfix : step czero (initState czero) = initState czero :=
    step_init_fixed czero (fun _ _ => rfl) rfl
  have hmax : maxS czero (initState czero) = 0 := by
    simp [maxS, czero, rowMax, initState]
  have hng : ¬ guardTriggers czero (initState czero) := by
    rw [guardTriggers, hmax, abs_zero]
    norm_num [LIM_VALUE]
  show runGuard czero (0 + 1) = some (initState czero)
  simp only [runGuard]
  rw [hfix, if_neg hng]

/-- C8 (amended): the noise-to-multiplier map of the randomization step yields
`1 + r` for positive noise `r`, `1 / (1 - r)` for negative noise, and `0` (not
`1`) for noise exactly zero, since the array is allocated as zeros and only the
strictly positive and strictly negative entries are overwritten; consequently
the multiplier is strictly positive for every nonzero noise value. -/
theorem c8_multiplier_map (r : ℝ) :
    (0 < r → multiply r = 1 + r) ∧ (r < 0 → multiply r = 1 / (1 - r)) ∧
      multiply 0 = 0 ∧ (r ≠ 0 → 0 < multiply r) := by
  refine ⟨fun h => ?_, fun h => ?_, ?_, fun h => ?_⟩
  · rw [multiply, if_pos h]
  · rw [multiply, if_neg (by linarith), if_pos h]
  · rw [multiply, if_neg (lt_irrefl 0), if_neg (lt_irrefl 0)]
  · rcases lt_or_gt_of_ne h with h1 | h1
    · rw [multiply, if_neg (by linarith), if_pos h1]
      exact div_pos one_pos (by linarith)
    · rw [multiply, if_pos h1]
      linarith

/-- C8 counterexample: at noise value exactly `0` the multiplier is `0`, not
`1` as the claim states, and in particular it is not strictly positive. -/
theorem c8_multiplier_cex : multiply 0 ≠ 1 ∧ ¬ (0 : ℝ) < multiply 0 := by
  have h : multiply 0 = 0 := by
    rw [multiply, if_neg (lt_irrefl 0), if_neg (lt_irrefl 0)]
  rw [h]
  norm_num

/-- C8 witness: the multiplier at the concrete negative noise value `-2` is
strictly positive. -/
theorem c8_multiplier_map_witness : (0 : ℝ) < multiply (-2) :=
  (c8_multiplier_map (-2)).2.2.2 (by norm_num)

/-- C9: at a checkpoint whose theoretical cumulative top-boundary inflow
`k * SM * Σ topFlux` is exactly zero, the source's unguarded division
`error_rel = error_abs / flowed_in_should` produces a non-finite
floating-point value (modelled `none`): the NaN is produced and propagated,
no guarded "undefined" outcome exists in the code. -/
theorem c9_zero_inflow_unguarded (c : Config) (s : State) (k : ℕ)
    (h : topSum c s = 0) : errorRel c s k = none := by
  rw [errorRel, flowedInShould, h, mul_zero, floatDiv, if_pos rfl]

/-- C9 witness: the zero-top-flux configuration reaches a checkpoint with zero
theoretical inflow and the relative error is the non-finite value. -/
theorem c9_zero_inflow_unguarded_witness : errorRel czero (run czero 7) 7 = none :=
  c9_zero_inflow_unguarded czero (run czero 7) 7 (by
    rw [run_const czero (fun _ _ => rfl) rfl]
    simp [topSum, initState, czero])

/-- C5 (amended): the divergence guard of the loop compares `LIM_VALUE` with
the absolute value of the field maximum `np.abs(np.amax(S))`, so any in-grid
cell exceeding `LIM_VALUE` makes the guard fire, and the guarded loop yields a
state after an iteration only while the guard is silent (once it fires the run
terminates); a negative cell alone, however, need not fire the guard. -/
theorem c5_divergence_guard :
    (∀ (c : Config) (s : State) (y z x : ℕ), y ≤ c.nY - 1 → z ≤ c.nZ - 1 →
        x ≤ c.nX - 1 → LIM_VALUE < s.S y z x → guardTriggers c s) ∧
      ∀ (c : Config) (n : ℕ) (s : State), runGuard c (n + 1) = some s →
        ¬ guardTriggers c s := by
  constructor
  · intro c s y z x hy hz hx hS
    have h1 : s.S y z x ≤ rowMax (fun i => s.S y z i) (c.nX - 1) :=
      le_rowMax _ _ x hx
    have h2 : rowMax (fun i => s.S y z i) (c.nX - 1)
        ≤ rowMax (fun j => rowMax (fun i => s.S y j i) (c.nX - 1)) (c.nZ - 1) :=
      le_rowMax (fun j => rowMax (fun i => s.S y j i) (c.nX - 1)) _ z hz
    have h3 : rowMax (fun j => rowMax (fun i => s.S y j i) (c.nX - 1)) (c.nZ - 1)
        ≤ maxS c s :=
      le_rowMax (fun k => rowMax (fun j => rowMax (fun i => s.S k j i) (c.nX - 1)) (c.nZ - 1))
        _ y hy
    have hmax : LIM_VALUE < maxS c s :=
      lt_of_lt_of_le hS (le_trans h1 (le_trans h2 h3))
    exact lt_of_lt_of_le hmax (le_abs_self _)
  · intro c n s h
    simp only [runGuard] at h
    cases hrec : runGuard c n with
    | none =>
      rw [hrec] at h
      exact absurd h (by simp)
    | some s0 =>
      rw [hrec] at h
      dsimp only at h
      split_ifs at h with hg
      obtain rfl := Option.some.inj h
      exact hg

/-- C5 counterexample: a saturation field with a negative cell (violating
`0 ≤ S`) whose maximum is `1/2`, so `np.abs(np.amax(S)) = 1/2` stays below
`LIM_VALUE` and the guard does not fire: the loop does not raise on this
bound violation. -/
theorem c5_divergence_guard_cex : stNeg.S 0 0 1 < 0 ∧ ¬ guardTriggers gridC5 stNeg := by
  constructor
  · norm_num [stNeg]
  · have hmax : maxS gridC5 stNeg = 1 / 2 := by
      have h1 : gridC5.nY - 1 = 0 := rfl
      have h2 : gridC5.nZ - 1 = 0 := rfl
      have h3 : gridC5.nX - 1 = 1 := rfl
      rw [maxS, h1, h2, h3]
      show max (stNeg.S 0 0 0) (stNeg.S 0 0 1) = 1 / 2
      rw [show stNeg.S 0 0 0 = 1 / 2 from rfl, show stNeg.S 0 0 1 = -(1 / 2) from rfl]
      rw [max_eq_left (by norm_num : -(1 / 2 : ℝ) ≤ 1 / 2)]
    rw [guardTriggers, hmax, abs_of_pos (by norm_num : (0 : ℝ) < 1 / 2)]
    norm_num [LIM_VALUE]

/-- C5 witness: a cell at saturation `2` fires the guard, and the zero run is
not interrupted after its first iteration. -/
theorem c5_divergence_guard_witness :
    guardTriggers gridC5 stHigh ∧ ¬ guardTriggers czero (initState czero) :=
  ⟨c5_divergence_guard.1 gridC5 stHigh 0 0 0 (Nat.zero_le _) (Nat.zero_le _)
      (Nat.zero_le _) (by norm_num [stHigh, stNeg, LIM_VALUE]),
    c5_divergence_guard.2 czero 0 (initState czero) runGuard_czero_one⟩

/-- C10: across every iteration of the main loop the flux update writes only
interior faces: the top face row `Q_Z[:, 0, :]` keeps the configured injection
pattern for the whole run, and the domain-boundary faces `Q_Z[:, N_Z, :]`,
`Q_X[:, :, 0]`, `Q_X[:, :, N_X]`, `Q_Y[0, :, :]`, `Q_Y[N_Y, :, :]` keep their
initial zeros for the whole run. -/
theorem c10_flux_frame (c : Config) (hZ : 1 ≤ c.nZ) (n y z x : ℕ) :
    (run c n).QZ y 0 x = c.topFlux y x ∧ (run c n).QZ y c.nZ x = 0 ∧
      (run c n).QX y z 0 = 0 ∧ (run c n).QX y z c.nX = 0 ∧
      (run c n).QY 0 z x = 0 ∧ (run c n).QY c.nY z x = 0 :=
  run_frame c hZ n y z x

/-- C10 witness: the frame property evaluated after three iterations of the
concrete zero-flux run. -/
theorem c10_flux_frame_witness :
    (run czero 3).QZ 0 0 0 = czero.topFlux 0 0 ∧ (run czero 3).QZ 0 czero.nZ 0 = 0 ∧
      (run czero 3).QX 0 0 0 = 0 ∧ (run czero 3).QX 0 0 czero.nX = 0 ∧
      (run czero 3).QY 0 0 0 = 0 ∧ (run czero 3).QY czero.nY 0 0 = 0 :=
  c10_flux_frame czero (by norm_num [czero]) 3 0 0 0

/-- C7 (amended): with zero boundary flux everywhere and zero initial
saturation (so the relative permeability, and with it the gravity-driven
interior flux, vanishes) the saturation field stays exactly at its initial
value and the pressure stays at its initial branch value for every step. -/
theorem c7_zero_flux_amended (c : Config) (htop : ∀ y x, c.topFlux y x = 0)
    (hS0 : c.S0 = 0) (n y z x : ℕ) :
    (run c n).S y z x = c.S0 ∧ (run c n).P y z x = (initState c).P y z x := by
  rw [run_const c htop hS0 n]
  exact ⟨rfl, rfl⟩

/-- C7 counterexample: in the two-layer run with zero boundary flux but
nonzero uniform initial saturation, the gravity term `RHO_G` creates a
positive interior vertical flux after the first step, and the top cell's
saturation differs from its initial value after the second step. -/
theorem c7_zero_flux_cex :
    (∀ y x, cexC7.topFlux y x = 0) ∧ (run cexC7 2).S 0 0 0 ≠ cexC7.S0 := by
  refine ⟨fun _ _ => rfl, ?_⟩
  rw [cexC7_run2_S]
  have hπ : 0 < permFn cexC7.M_Q (1 / 100) :=
    permFn_pos _ _ (by norm_num [cexC7, cexC2, czero]) (by norm_num) (by norm_num)
  have hMU : (0 : ℝ) < MU_INVERSE := by norm_num [MU_INVERSE, MU]
  have hK : (0 : ℝ) < KAPPA := by norm_num [KAPPA]
  have hG : (0 : ℝ) < RHO_G := by norm_num [RHO_G, RHO, G]
  have hSM : 0 < SM cexC7 := by
    norm_num [SM, dt, dxPar, dtBase, THETA, cexC7, cexC2, czero]
  have hpos : 0 < SM cexC7 * (MU_INVERSE * KAPPA * permFn cexC7.M_Q (1 / 100) * RHO_G) :=
    mul_pos hSM (mul_pos (mul_pos (mul_pos hMU hK) hπ) hG)
  have hval : cexC7.S0 = 1 / 100 := rfl
  rw [hval]
  intro heq
  linarith

/-- C7 witness: the zero-flux zero-saturation run keeps saturation and
pressure at their initial values after two steps. -/
theorem c7_zero_flux_witness :
    (run czero 2).S 0 0 0 = czero.S0 ∧ (run czero 2).P 0 0 0 = (initState czero).P 0 0 0 :=
  c7_zero_flux_amended czero (fun _ _ => rfl) rfl 2 0 0 0

/-- C1: every interior face flux computed by an iteration equals the face
conductance `(1 / viscosity) * sqrt(k_i) * sqrt(k_j)` times
`sqrt(perm_i) * sqrt(perm_j)` times `(gravityTerm - deltaP / dL)`, where the
gravity term is `RHO * G` on the depth axis and `0` on the two lateral axes,
`deltaP` is the pressure difference in the direction of increasing index, and
the relative permeability is `S ^ LAMBDA * (1 - (1 - S ^ (1/M_Q)) ^ M_Q) ^ 2`
evaluated at the just-updated saturation. -/
theorem c1_face_flux_formula (c : Config) (s : State) (y z x : ℕ) :
    (1 ≤ x → x < c.nX →
      (step c s).QX y z x
        = 1 / MU * Real.sqrt (k_rnd c y z (x - 1)) * Real.sqrt (k_rnd c y z x) *
            (Real.sqrt ((step c s).S y z (x - 1) ^ LAMBDA *
                (1 - (1 - (step c s).S y z (x - 1) ^ c.M_Q⁻¹) ^ c.M_Q) ^ 2) *
              Real.sqrt ((step c s).S y z x ^ LAMBDA *
                (1 - (1 - (step c s).S y z x ^ c.M_Q⁻¹) ^ c.M_Q) ^ 2)) *
            (0 - ((step c s).P y z x - (step c s).P y z (x - 1)) / c.dL)) ∧
    (1 ≤ y → y < c.nY →
      (step c s).QY y z x
        = 1 / MU * Real.sqrt (k_rnd c (y - 1) z x) * Real.sqrt (k_rnd c y z x) *
            (Real.sqrt ((step c s).S (y - 1) z x ^ LAMBDA *
                (1 - (1 - (step c s).S (y - 1) z x ^ c.M_Q⁻¹) ^ c.M_Q) ^ 2) *
              Real.sqrt ((step c s).S y z x ^ LAMBDA *
                (1 - (1 - (step c s).S y z x ^ c.M_Q⁻¹) ^ c.M_Q) ^ 2)) *
            (0 - ((step c s).P y z x - (step c s).P (y - 1) z x) / c.dL)) ∧
    (1 ≤ z → z < c.nZ →
      (step c s).QZ y z x
        = 1 / MU * Real.sqrt (k_rnd c y (z - 1) x) * Real.sqrt (k_rnd c y z x) *
            (Real.sqrt ((step c s).S y (z - 1) x ^ LAMBDA *
                (1 - (1 - (step c s).S y (z - 1) x ^ c.M_Q⁻¹) ^ c.M_Q) ^ 2) *
              Real.sqrt ((step c s).S y z x ^ LAMBDA *
                (1 - (1 - (step c s).S y z x ^ c.M_Q⁻¹) ^ c.M_Q) ^ 2)) *
            (RHO * G - ((step c s).P y z x - (step c s).P y (z - 1) x) / c.dL)) := by
  refine ⟨fun h1 h2 => ?_, fun h1 h2 => ?_, fun h1 h2 => ?_⟩
  · have hx : x - 1 + 1 = x := Nat.sub_add_cancel h1
    simp only [step, permNew, permFn, k_rnd_q1, MU_INVERSE]
    rw [if_pos ⟨h1, h2⟩, hx]
    ring
  · have hy : y - 1 + 1 = y := Nat.sub_add_cancel h1
    simp only [step, permNew, permFn, k_rnd_q3, MU_INVERSE]
    rw [if_pos ⟨h1, h2⟩, hy]
    ring
  · have hz : z - 1 + 1 = z := Nat.sub_add_cancel h1
    simp only [step, permNew, permFn, k_rnd_q2, MU_INVERSE, RHO_G]
    rw [if_pos ⟨h1, h2⟩, hz]
    ring

/-- C1 witness: the flux formula evaluated at the interior depth face of the
concrete two-layer run. -/
theorem c1_face_flux_formula_witness :
    (step cexC7 (initState cexC7)).QZ 0 1 0
      = 1 / MU * Real.sqrt (k_rnd cexC7 0 (1 - 1) 0) * Real.sqrt (k_rnd cexC7 0 1 0) *
          (Real.sqrt ((step cexC7 (initState cexC7)).S 0 (1 - 1) 0 ^ LAMBDA *
              (1 - (1 - (step cexC7 (initState cexC7)).S 0 (1 - 1) 0 ^ cexC7.M_Q⁻¹)
                  ^ cexC7.M_Q) ^ 2) *
            Real.sqrt ((step cexC7 (initState cexC7)).S 0 1 0 ^ LAMBDA *
              (1 - (1 - (step cexC7 (initState cexC7)).S 0 1 0 ^ cexC7.M_Q⁻¹)
                  ^ cexC7.M_Q) ^ 2)) *
          (RHO * G - ((step cexC7 (initState cexC7)).P 0 1 0
              - (step cexC7 (initState cexC7)).P 0 (1 - 1) 0) / cexC7.dL) :=
  (c1_face_flux_formula cexC7 (initState cexC7) 0 1 0).2.2 (le_refl 1)
    (by norm_num [cexC7, cexC2, czero])

/-- C3: for every cell and step, when saturation increases the post-update
pressure equals `min(P + Kps * (S_new - S), P_wet(S_old))`, hence is at most
the pre-clamp relaxed value and at most `P_wet` at the old saturation; when
saturation decreases the post-update pressure is at least `P_drain` at the old
saturation; the clamping branch pressures are functions of the old
saturation. -/
theorem c3_pressure_update (c : Config) (s : State) (y z x : ℕ) :
    (s.S y z x < (step c s).S y z x →
      (step c s).P y z x
          = min (s.P y z x + Kps * ((step c s).S y z x - s.S y z x))
              (c.curveWet (s.S y z x)) ∧
        (step c s).P y z x ≤ s.P y z x + Kps * ((step c s).S y z x - s.S y z x) ∧
        (step c s).P y z x ≤ c.curveWet (s.S y z x)) ∧
    ((step c s).S y z x < s.S y z x →
      c.curveDrain (s.S y z x) ≤ (step c s).P y z x) := by
  have hS : (step c s).S = sNewFn c s := rfl
  have hP : (step c s).P = pNewFn c s := rfl
  rw [hS, hP]
  constructor
  · intro h
    have h1 : sNewFn c s y z x - s.S y z x > 0 := sub_pos.mpr h
    rw [pNewFn, if_pos h1]
    exact ⟨rfl, min_le_left _ _, min_le_right _ _⟩
  · intro h
    have h1 : s.S y z x - sNewFn c s y z x > 0 := sub_pos.mpr h
    have h2 : ¬ sNewFn c s y z x - s.S y z x > 0 := by linarith
    rw [pNewFn, if_neg h2, if_pos h1]
    exact le_max_right _ _

theorem cfgQ_sNew1 : sNewFn cfgQ (initState cfgQ) 0 0 0 = 7001 / 700000 := by
  have hSM : SM cfgQ = 1 / 56 := by
    norm_num [SM, dt, dxPar, dtBase, THETA, cfgQ, cexC2, czero]
  rw [sNewFn, if_pos (by norm_num [cfgQ, cexC2, czero] : (0 : ℕ) = cfgQ.nZ - 1)]
  have hpre : sNewPre cfgQ (initState cfgQ) 0 0 0 = 7001 / 700000 := by
    rw [sNewPre, qDiv, hSM]
    simp [initState, cfgQ, cexC2, czero]
    norm_num
  rw [hpre]
  rw [show (initState cfgQ).boundFlux 0 0 = 0 from rfl, mul_zero, add_zero,
    min_eq_left (by norm_num [cfgQ, cexC2, czero] : (7001 : ℝ) / 700000 ≤ cfgQ.boundResidual),
    max_self]

/-- C3 witness: in the concrete injected run the single cell wets during the
first step and its pressure is the clamped minimum. -/
theorem c3_pressure_update_witness :
    (step cfgQ (initState cfgQ)).P 0 0 0
      = min ((initState cfgQ).P 0 0 0
            + Kps * ((step cfgQ (initState cfgQ)).S 0 0 0 - (initState cfgQ).S 0 0 0))
          (cfgQ.curveWet ((initState cfgQ).S 0 0 0)) :=
  ((c3_pressure_update cfgQ (initState cfgQ) 0 0 0).1 (by
      show (1 : ℝ) / 100 < sNewFn cfgQ (initState cfgQ) 0 0 0
      rw [cfgQ_sNew1]
      norm_num)).1

/-- C4: assuming the retention curves satisfy the hysteresis ordering
(draining at least wetting at equal saturation), after every pressure update
the new pressure lies in the closed interval from
`min(P_wet(S_old), previous P)` to `max(P_drain(S_old), previous P)`. -/
theorem c4_pressure_envelope (c : Config) (s : State) (y z x : ℕ)
    (hord : ∀ t : ℝ, c.curveWet t ≤ c.curveDrain t) :
    min (c.curveWet (s.S y z x)) (s.P y z x) ≤ (step c s).P y z x ∧
      (step c s).P y z x ≤ max (c.curveDrain (s.S y z x)) (s.P y z x) := by
  have hP : (step c s).P = pNewFn c s := rfl
  rw [hP, pNewFn]
  have hK : (0 : ℝ) ≤ Kps := by norm_num [Kps]
  split_ifs with h1 h2
  · have hrel : s.P y z x ≤ s.P y z x + Kps * (sNewFn c s y z x - s.S y z x) := by
      nlinarith [mul_nonneg hK (le_of_lt h1)]
    constructor
    · exact le_min (le_trans (min_le_right _ _) hrel) (min_le_left _ _)
    · exact le_trans (min_le_right _ _) (le_trans (hord _) (le_max_left _ _))
  · have hrel : s.P y z x + Kps * (sNewFn c s y z x - s.S y z x) ≤ s.P y z x := by
      nlinarith [mul_nonneg hK (le_of_lt h2)]
    constructor
    · exact le_trans (min_le_left _ _) (le_trans (hord _) (le_max_right _ _))
    · exact max_le (le_trans hrel (le_max_right _ _)) (le_max_left _ _)
  · have hze : sNewFn c s y z x - s.S y z x = 0 := by
      push_neg at h1 h2
      linarith
    rw [hze, mul_zero, add_zero]
    exact ⟨min_le_right _ _, le_max_right _ _⟩

/-- C4 witness: the envelope bound evaluated on the concrete zero run with the
ordered pair of curves. -/
theorem c4_pressure_envelope_witness :
    min (czero.curveWet ((initState czero).S 0 0 0)) ((initState czero).P 0 0 0)
        ≤ (step czero (initState czero)).P 0 0 0 ∧
      (step czero (initState czero)).P 0 0 0
        ≤ max (czero.curveDrain ((initState czero).S 0 0 0)) ((initState czero).P 0 0 0) :=
  c4_pressure_envelope czero (initState czero) 0 0 0
    (fun t => by norm_num [czero, idWet, idDrain])

/-- C6 (amended): the bottom clamp equals `min(bottom S_new, residual)` and
the bottom-layer saturation after the boundary update equals
`max(S_new + SM * bound_flux, clamp)`, so it never drops below the clamp;
when the residual threshold is at least `1` (and the pre-clamp bottom
saturation is below the threshold) the bottom layer never drops below
`S_new` — no outflow — and it is left exactly equal to `S_new` precisely
when the computed increment `SM * bound_flux` is nonpositive; a positive
bottom flux instead adds mass to the bottom layer. -/
theorem c6_bottom_boundary (c : Config) (s : State) (y x : ℕ) :
    (step c s).S y (c.nZ - 1) x
        = max (sNewPre c s y (c.nZ - 1) x + SM c * s.boundFlux y x)
            (min (sNewPre c s y (c.nZ - 1) x) c.boundResidual) ∧
      min (sNewPre c s y (c.nZ - 1) x) c.boundResidual ≤ (step c s).S y (c.nZ - 1) x ∧
      (1 ≤ c.boundResidual → sNewPre c s y (c.nZ - 1) x ≤ c.boundResidual →
        sNewPre c s y (c.nZ - 1) x ≤ (step c s).S y (c.nZ - 1) x) ∧
      (1 ≤ c.boundResidual → sNewPre c s y (c.nZ - 1) x ≤ c.boundResidual →
        SM c * s.boundFlux y x ≤ 0 →
        (step c s).S y (c.nZ - 1) x = sNewPre c s y (c.nZ - 1) x) := by
  have he : (step c s).S y (c.nZ - 1) x
      = max (sNewPre c s y (c.nZ - 1) x + SM c * s.boundFlux y x)
          (min (sNewPre c s y (c.nZ - 1) x) c.boundResidual) := by
    show sNewFn c s y (c.nZ - 1) x = _
    rw [sNewFn, if_pos rfl]
  refine ⟨he, ?_, ?_, ?_⟩
  · rw [he]
    exact le_max_right _ _
  · intro _ hpre
    rw [he, min_eq_left hpre]
    exact le_max_right _ _
  · intro _ hpre hbf
    rw [he, min_eq_left hpre]
    exact max_eq_right (by linarith)

/-- C6 witness: on the zero run the bottom update is the identity. -/
theorem c6_bottom_boundary_witness :
    (step czero (initState czero)).S 0 (czero.nZ - 1) 0
      = sNewPre czero (initState czero) 0 (czero.nZ - 1) 0 :=
  (c6_bottom_boundary czero (initState czero) 0 0).2.2.2
    (by norm_num [czero])
    (by
      rw [sNewPre, init_qDiv_zero czero (fun _ _ => rfl)]
      norm_num [initState, czero])
    (by simp [initState])

/-- C6 counterexample: in the concrete run the residual threshold is `1.05 ≥ 1`
yet after the second step the bottom-layer saturation differs from its
pre-boundary value `S_new`, because the recomputed bottom flux is positive and
is added to the layer. -/
theorem c6_bottom_boundary_cex :
    (1 : ℝ) ≤ cexC2.boundResidual ∧
      (step cexC2 (run cexC2 1)).S 0 (cexC2.nZ - 1) 0
        ≠ sNewPre cexC2 (run cexC2 1) 0 (cexC2.nZ - 1) 0 := by
  constructor
  · norm_num [cexC2, czero]
  · have h1 : cexC2.nZ - 1 = 0 := rfl
    rw [h1]
    have h2 : (step cexC2 (run cexC2 1)).S 0 0 0 = (run cexC2 2).S 0 0 0 := rfl
    rw [h2, cexC2_run2_S, cexC2_pre2]
    have hpos := mul_pos cexC2_SM_pos cexC2_bf_pos
    intro heq
    linarith

/-- C2 (amended): for every run with residual threshold at least `1` in which,
additionally, at every step the recomputed bottom flux increment
`SM * bound_flux` is nonpositive and the pre-clamp bottom saturation stays
below the threshold (so the bottom update is a no-op, bottom outflow being
disabled), the total saturation change after `n` steps equals exactly
`n * SM * Σ(topFlux)` in exact arithmetic. -/
theorem c2_conservation_amended (c : Config) (n : ℕ)
    (hZ : 1 ≤ c.nZ) (hres : 1 ≤ c.boundResidual)
    (hbf : ∀ k, k < n → ∀ y x, SM c * (run c k).boundFlux y x ≤ 0)
    (hpre : ∀ k, k < n → ∀ y x, sNewPre c (run c k) y (c.nZ - 1) x ≤ c.boundResidual) :
    totalS c (run c n) - totalS c (run c 0)
      = n * SM c * (∑ y ∈ Finset.range c.nY, ∑ x ∈ Finset.range c.nX, c.topFlux y x) := by
  induction n with
  | zero => simp
  | succ n ih =>
    have frame := run_frame c hZ n
    have htop : topSum c (run c n)
        = ∑ y ∈ Finset.range c.nY, ∑ x ∈ Finset.range c.nX, c.topFlux y x :=
      Finset.sum_congr rfl fun y _ => Finset.sum_congr rfl fun x _ => (frame y 0 x).1
    have hbot : ∀ y x, sNewFn c (run c n) y (c.nZ - 1) x
        = sNewPre c (run c n) y (c.nZ - 1) x := by
      intro y x
      rw [sNewFn, if_pos rfl, min_eq_left (hpre n (Nat.lt_succ_self n) y x)]
      exact max_eq_right (by linarith [hbf n (Nat.lt_succ_self n) y x])
    have hstep := totalS_step c (run c n)
      (fun y z => (frame y z 0).2.2.1) (fun y z => (frame y z 0).2.2.2.1)
      (fun z x => (frame 0 z x).2.2.2.2.1) (fun z x => (frame 0 z x).2.2.2.2.2)
      (fun y x => (frame y 0 x).2.1) hbot
    have hrun : run c (n + 1) = step c (run c n) := rfl
    have ih2 := ih (fun k hk => hbf k (Nat.lt_succ_of_lt hk))
      (fun k hk => hpre k (Nat.lt_succ_of_lt hk))
    rw [hrun, hstep, htop]
    push_cast
    linear_combination ih2

/-- C2 witness: the conservation identity after one step of the concrete zero
run. -/
theorem c2_conservation_witness :
    totalS czero (run czero 1) - totalS czero (run czero 0)
      = (1 : ℕ) * SM czero *
          (∑ y ∈ Finset.range czero.nY, ∑ x ∈ Finset.range czero.nX, czero.topFlux y x) :=
  c2_conservation_amended czero 1 (by norm_num [czero]) (by norm_num [czero])
    (by
      intro k hk y x
      have hk0 : k = 0 := by omega
      subst hk0
      show SM czero * (initState czero).boundFlux y x ≤ 0
      simp [initState])
    (by
      intro k hk y x
      have hk0 : k = 0 := by omega
      subst hk0
      show sNewPre czero (initState czero) y (czero.nZ - 1) x ≤ czero.boundResidual
      rw [sNewPre, init_qDiv_zero czero (fun _ _ => rfl)]
      norm_num [initState, czero])

theorem cfgQ_SM : SM cfgQ = 1 / 56 := by
  norm_num [SM, dt, dxPar, dtBase, THETA, cfgQ, cexC2, czero]

theorem cfgQ_krnd (y z x : ℕ) : k_rnd cfgQ y z x = KAPPA := by
  simp [k_rnd, cfgQ, cexC2, czero]

theorem cfgQ_pNew1 : pNewFn cfgQ (initState cfgQ) 0 0 0 = 1 / 100 := by
  have hS0 : (initState cfgQ).S 0 0 0 = 1 / 100 := rfl
  have hpos : sNewFn cfgQ (initState cfgQ) 0 0 0 - (initState cfgQ).S 0 0 0 > 0 := by
    rw [cfgQ_sNew1, hS0]
    norm_num
  rw [pNewFn, if_pos hpos, cfgQ_sNew1, hS0]
  have hP0 : (initState cfgQ).P 0 0 0 = 1 / 100 := by
    simp [initState, cfgQ, cexC2, czero, idWet]
  have hW : cfgQ.curveWet (1 / 100) = 1 / 100 := by
    simp [cfgQ, cexC2, czero, idWet]
  rw [hP0, hW]
  exact min_eq_right (by norm_num [Kps])

theorem cfgQ_run1_flux :
    (run cfgQ 1).QX 0 0 0 = 0 ∧ (run cfgQ 1).QX 0 0 1 = 0 ∧
      (run cfgQ 1).QY 0 0 0 = 0 ∧ (run cfgQ 1).QY 1 0 0 = 0 ∧
      (run cfgQ 1).QZ 0 0 0 = 8 / 100000 ∧ (run cfgQ 1).QZ 0 1 0 = 0 := by
  refine ⟨?_, ?_, ?_, ?_, ?_, ?_⟩ <;> simp [run, step, initState, cfgQ, cexC2, czero] <;>
    norm_num

theorem cfgQ_run1_bf : (run cfgQ 1).boundFlux 0 0
    = MU_INVERSE * KAPPA * permFn cfgQ.M_Q (7001 / 700000) * (RHO_G + 4) := by
  show (step cfgQ (initState cfgQ)).boundFlux 0 0 = _
  simp only [step]
  have h0 : cfgQ.nZ - 1 = 0 := rfl
  rw [h0, permNew, cfgQ_sNew1, cfgQ_pNew1, cfgQ_krnd]
  have hbr : RHO_G - ((0 : ℝ) - 1 / 100) / cfgQ.dL = RHO_G + 4 := by
    norm_num [cfgQ, cexC2, czero]
  rw [hbr]

theorem cfgQ_bf_pos : 0 < (run cfgQ 1).boundFlux 0 0 := by
  rw [cfgQ_run1_bf]
  have hMU : (0 : ℝ) < MU_INVERSE := by norm_num [MU_INVERSE, MU]
  have hK : (0 : ℝ) < KAPPA := by norm_num [KAPPA]
  have hπ : 0 < permFn cfgQ.M_Q (7001 / 700000) :=
    permFn_pos _ _ (by norm_num [cfgQ, cexC2, czero]) (by norm_num) (by norm_num)
  have hG : (0 : ℝ) < RHO_G + 4 := by norm_num [RHO_G, RHO, G]
  exact mul_pos (mul_pos (mul_pos hMU hK) hπ) hG

theorem cfgQ_SM_pos : 0 < SM cfgQ := by
  rw [cfgQ_SM]
  norm_num

theorem cfgQ_pre2 : sNewPre cfgQ (run cfgQ 1) 0 0 0 = 7002 / 700000 := by
  rw [sNewPre, qDiv]
  simp only [Nat.zero_add]
  have hS1 : (run cfgQ 1).S 0 0 0 = 7001 / 700000 := cfgQ_sNew1
  rw [hS1, cfgQ_run1_flux.1, cfgQ_run1_flux.2.1, cfgQ_run1_flux.2.2.1,
    cfgQ_run1_flux.2.2.2.1, cfgQ_run1_flux.2.2.2.2.1, cfgQ_run1_flux.2.2.2.2.2, cfgQ_SM]
  norm_num

theorem cfgQ_run2_S : (run cfgQ 2).S 0 0 0
    = 7002 / 700000 + SM cfgQ * (run cfgQ 1).boundFlux 0 0 := by
  show sNewFn cfgQ (run cfgQ 1) 0 0 0 = _
  rw [sNewFn, if_pos (by norm_num [cfgQ, cexC2, czero] : (0 : ℕ) = cfgQ.nZ - 1), cfgQ_pre2,
    min_eq_left (by norm_num [cfgQ, cexC2, czero] : (7002 : ℝ) / 700000 ≤ cfgQ.boundResidual)]
  exact max_eq_left (by nlinarith [mul_pos cfgQ_SM_pos cfgQ_bf_pos])

/-- C2 counterexample: the concrete single-cell run with the source's residual
threshold `1.05 ≥ 1`, initial saturation `0.01` and the full-top-face flux mode
with `Q0 = 8e-5` active; after two steps the total saturation change differs
from `2 * SM * Σ(topFlux)` in exact arithmetic, because the positive
recomputed bottom flux adds mass through the bottom boundary. -/
theorem c2_conservation_cex :
    (1 : ℝ) ≤ cfgQ.boundResidual ∧
      totalS cfgQ (run cfgQ 2) - totalS cfgQ (run cfgQ 0)
        ≠ (2 : ℕ) * SM cfgQ *
            (∑ y ∈ Finset.range cfgQ.nY, ∑ x ∈ Finset.range cfgQ.nX, cfgQ.topFlux y x) := by
  constructor
  · norm_num [cfgQ, cexC2, czero]
  · have htot2 : totalS cfgQ (run cfgQ 2) = (run cfgQ 2).S 0 0 0 := by
      simp [totalS, cfgQ, cexC2, czero]
    have htot0 : totalS cfgQ (run cfgQ 0) = 1 / 100 := by
      simp [totalS, cfgQ, cexC2, czero, run, initState]
    have hT : (∑ y ∈ Finset.range cfgQ.nY, ∑ x ∈ Finset.range cfgQ.nX, cfgQ.topFlux y x)
        = 8 / 100000 := by
      simp [cfgQ, cexC2, czero]
      norm_num
    rw [htot2, htot0, hT, cfgQ_run2_S, cfgQ_SM]
    have hb := cfgQ_bf_pos
    intro heq
    push_cast at heq
    linarith

end

end SemiContinuum
